import Mathlib

/-!
Verification of the search core of `claude-session-browser`.

The Go source is shallowly embedded: Go strings are modelled as Lean
`String`s (sequences of characters; all inputs exercised by the spec are
ASCII, where Go's byte offsets and character offsets coincide), Go `int`
as `Int`, Go slices as `List`, and fallible calls as `Except`/`Option`.
External effects (the ripgrep process, the Go context, goroutine
scheduling) are parameters of the embedded functions.
-/

namespace SessionBrowser

/-- Number of characters in a string, as a Go `int` (`len(s)`). -/
def strLen (s : String) : Int := (s.data.length : Int)

/-- `strings.Index` on character lists: smallest index at which `sub`
occurs in `s`, or `-1` when it does not occur. -/
def listIndexOf (s sub : List Char) : Int :=
  match (List.range (s.length + 1)).find? (fun i => sub.isPrefixOf (s.drop i)) with
  | some i => (i : Int)
  | none => -1

/-- Go `strings.Index(s, sub)`. -/
def goIndex (s sub : String) : Int := listIndexOf s.data sub.data

/-- Go `strings.Contains(s, sub)` (defined in Go as `Index(s, sub) >= 0`). -/
def goContains (s sub : String) : Bool := !(goIndex s sub == -1)

/-- Go `s[i:]` (in-bounds behaviour; the checked variant models the panic). -/
def goDrop (s : String) (i : Int) : String := ⟨s.data.drop i.toNat⟩

/-- Go `s[i:j]` (in-bounds behaviour; the checked variant models the panic). -/
def goSlice (s : String) (i j : Int) : String :=
  ⟨(s.data.drop i.toNat).take (j.toNat - i.toNat)⟩

/-- Go `s[i:]` with its panic condition made explicit: `none` means the
Go program would panic on this slice expression. -/
def goDropChecked (s : String) (i : Int) : Option String :=
  if 0 ≤ i ∧ i ≤ strLen s then some (goDrop s i) else none

/-- Go `s[i:j]` with its panic condition made explicit: `none` means the
Go program would panic on this slice expression. -/
def goSliceChecked (s : String) (i j : Int) : Option String :=
  if 0 ≤ i ∧ i ≤ j ∧ j ≤ strLen s then some (goSlice s i j) else none

/-! ## Data model (internal/model and internal/search/engine.go)

Scores (`float64` in Go) only ever hold integer values in this program
(the constant `1.0`, fuzzy scores converted from `int`, match counts),
so `Score` is modelled as `Int`. -/

/-- `model.SessionInfo`. `LastActive` is only ever read through
`Format("2006-01-02 15:04")`, so it is modelled as that formatted string. -/
structure SessionInfo where
  ID : String
  FilePath : String
  LastActive : String
  deriving DecidableEq, Repr, Inhabited

/-- `search.Match`. -/
structure Match where
  Text : String
  LineNumber : Int
  StartOffset : Int
  EndOffset : Int
  Context : String
  deriving DecidableEq, Repr, Inhabited

/-- `search.SearchResult`. -/
structure SearchResult where
  SessionID : String
  SessionIndex : Nat
  Matches : List Match
  Score : Int
  deriving DecidableEq, Repr, Inhabited

/-- Decidable equality for `Except`, so concrete runs of the embedded
fallible functions can be checked by `decide`. -/
instance {ε α : Type} [DecidableEq ε] [DecidableEq α] : DecidableEq (Except ε α) :=
  fun x y =>
    match x, y with
    | .error a, .error b =>
      if h : a = b then .isTrue (by subst h; rfl)
      else .isFalse (fun hh => h (by cases hh; rfl))
    | .error _, .ok _ => .isFalse (fun hh => Except.noConfusion hh)
    | .ok _, .error _ => .isFalse (fun hh => Except.noConfusion hh)
    | .ok a, .ok b =>
      if h : a = b then .isTrue (by subst h; rfl)
      else .isFalse (fun hh => h (by cases hh; rfl))

/-! ## ContextExtractor (`extractContext`, content engine source) -/

/-- The literal `"content":"` searched for by `extractContext`. -/
def contentKey : String := "\"content\":\""

/-- The closing quote literal. -/
def quoteStr : String := "\""

/-- The ellipsis marker. -/
def dots : String := "..."

/-- The generic fallback at the bottom of `extractContext`: a window of 30
characters before and after the match within the whole raw line, with
ellipsis markers on clipped edges. -/
def fallbackWindow (text : String) (matchStart matchEnd : Int) : String :=
  let contextStart := if matchStart - 30 < 0 then 0 else matchStart - 30
  let contextEnd := if matchEnd + 30 > strLen text then strLen text else matchEnd + 30
  (if contextStart > 0 then dots else "")
    ++ goSlice text contextStart contextEnd
    ++ (if contextEnd < strLen text then dots else "")

/-- The field branch of `extractContext`: a window of 50 characters
before and after the match (of length `mlen`, starting at `pos` within
`content`), clipped to `content`, with ellipsis markers on clipped
edges. -/
def fieldWindow (content : String) (pos mlen : Int) : String :=
  let contextStart := if pos - 50 < 0 then 0 else pos - 50
  let contextEnd :=
    if pos + mlen + 50 > strLen content then strLen content else pos + mlen + 50
  (if contextStart > 0 then dots else "")
    ++ goSlice content contextStart contextEnd
    ++ (if contextEnd < strLen content then dots else "")

/-- `extractContext(text, matchStart, matchEnd)`: locate the embedded
`"content":"` field; if the match starts inside it, return a 50-character
window within the field, otherwise fall back to a 30-character window over
the whole line. Direct transcription of the Go function. -/
def extractContext (text : String) (matchStart matchEnd : Int) : String :=
  if goContains text contentKey then
    let contentStart0 := goIndex text contentKey
    if contentStart0 ≠ -1 then
      let contentStart := contentStart0 + strLen contentKey
      let contentEnd := goIndex (goDrop text contentStart) quoteStr
      if contentEnd ≠ -1 then
        let content := goSlice text contentStart (contentStart + contentEnd)
        if contentStart ≤ matchStart ∧ matchStart < contentStart + contentEnd then
          fieldWindow content (matchStart - contentStart) (matchEnd - matchStart)
        else fallbackWindow text matchStart matchEnd
      else fallbackWindow text matchStart matchEnd
    else fallbackWindow text matchStart matchEnd
  else fallbackWindow text matchStart matchEnd

/-- The fallback window with every Go slice guarded by its panic
condition (`none` = the Go code would panic). -/
def fallbackWindowChecked (text : String) (matchStart matchEnd : Int) : Option String :=
  let contextStart := if matchStart - 30 < 0 then 0 else matchStart - 30
  let contextEnd := if matchEnd + 30 > strLen text then strLen text else matchEnd + 30
  do
    let mid ← goSliceChecked text contextStart contextEnd
    pure ((if contextStart > 0 then dots else "")
      ++ mid ++ (if contextEnd < strLen text then dots else ""))

/-- The field branch with its Go slice guarded (`none` = panic). -/
def fieldWindowChecked (content : String) (pos mlen : Int) : Option String :=
  let contextStart := if pos - 50 < 0 then 0 else pos - 50
  let contextEnd :=
    if pos + mlen + 50 > strLen content then strLen content else pos + mlen + 50
  do
    let mid ← goSliceChecked content contextStart contextEnd
    pure ((if contextStart > 0 then dots else "")
      ++ mid ++ (if contextEnd < strLen content then dots else ""))

/-- `extractContext` with every Go slice guarded by its panic condition
(`none` = the Go code would panic on that slice expression). -/
def extractContextChecked (text : String) (matchStart matchEnd : Int) : Option String :=
  if goContains text contentKey then
    let contentStart0 := goIndex text contentKey
    if contentStart0 ≠ -1 then
      let contentStart := contentStart0 + strLen contentKey
      do
        let rest ← goDropChecked text contentStart
        let contentEnd := goIndex rest quoteStr
        if contentEnd ≠ -1 then do
          let content ← goSliceChecked text contentStart (contentStart + contentEnd)
          if contentStart ≤ matchStart ∧ matchStart < contentStart + contentEnd then
            fieldWindowChecked content (matchStart - contentStart) (matchEnd - matchStart)
          else fallbackWindowChecked text matchStart matchEnd
        else fallbackWindowChecked text matchStart matchEnd
    else fallbackWindowChecked text matchStart matchEnd
  else fallbackWindowChecked text matchStart matchEnd

/-! ## Spec-side description of the ContextExtractor (spec §4.4)

These definitions follow the wording of the spec, not the Go code: the
field's span is computed as absolute offsets into the line and the window
is taken directly from the line.  They are compared with `extractContext`
in the theorems for C6. -/

/-- Spec wording: the absolute span `[fieldStart, fieldEnd)` of the value
of the embedded `"content"` field, when it can be located. -/
def fieldSpan (text : String) : Option (Int × Int) :=
  let i := goIndex text contentKey
  if i = -1 then none
  else
    let fs := i + strLen contentKey
    let j := goIndex (goDrop text fs) quoteStr
    if j = -1 then none else some (fs, fs + j)

/-- Spec wording: a symmetric window of `w` characters before and after
the match span `[s, e)`, clipped to the region `[lo, hi)` of `text`, with
an ellipsis marker prepended iff clipped at the left edge and appended
iff clipped at the right edge. -/
def specWindow (text : String) (lo hi s e w : Int) : String :=
  let a := max lo (s - w)
  let b := min hi (e + w)
  (if lo < a then dots else "") ++ goSlice text a b ++ (if b < hi then dots else "")

/-- The ContextExtractor as described by the spec, with the condition
amended to what the code checks: the field branch is taken when the match
START offset lies inside the field's span (the end offset is not
examined). -/
def extractContextSpec (text : String) (s e : Int) : String :=
  match fieldSpan text with
  | some (fs, fe) =>
      if fs ≤ s ∧ s < fe then specWindow text fs fe s e 50
      else specWindow text 0 (strLen text) s e 30
  | none => specWindow text 0 (strLen text) s e 30

/-- The ContextExtractor exactly as claim C6 words it: the field branch
requires the whole match span `[s, e)` to lie inside the field's span. -/
def extractContextClaim (text : String) (s e : Int) : String :=
  match fieldSpan text with
  | some (fs, fe) =>
      if fs ≤ s ∧ e ≤ fe then specWindow text fs fe s e 50
      else specWindow text 0 (strLen text) s e 30
  | none => specWindow text 0 (strLen text) s e 30

/-! ## LineSearchProvider (`searchFile` and ripgrep JSON output parsing)

`encoding/json` is modelled as given: each stdout line arrives either as
`none` (the line failed to unmarshal into a JSON object — malformed JSON
or a non-object value) or as `some fields` (the decoded object).  All
numeric values in ripgrep's records are integers, so JSON numbers are
modelled as `Int` (Go's `float64` round-trip is exact on them). -/

/-- A decoded JSON value. -/
inductive JValue where
  | null : JValue
  | jbool : Bool → JValue
  | num : Int → JValue
  | str : String → JValue
  | arr : List JValue → JValue
  | obj : List (String × JValue) → JValue

/-- Key lookup in a decoded JSON object (`result["key"]`). -/
def jlookup (fs : List (String × JValue)) (k : String) : Option JValue :=
  (fs.find? (fun p => p.1 == k)).map (·.2)

/-- One decoded stdout line: `none` when `json.Unmarshal` into
`map[string]interface{}` fails for that line. -/
abbrev RgLine := Option (List (String × JValue))

/-- Builds the `Match` for one `"match"` record's `data` object, following
the type-assertion cascade of `searchFile`: every failed assertion leaves
the corresponding fields at their zero values, and `Context` is filled
only when a first-submatch `start` offset was present. -/
def buildMatch (d : List (String × JValue)) : Match :=
  let m0 : Match := ⟨"", 0, 0, 0, ""⟩
  let m1 := match jlookup d "line_number" with
    | some (.num ln) => { m0 with LineNumber := ln }
    | _ => m0
  match jlookup d "lines" with
  | some (.obj ls) =>
    match jlookup ls "text" with
    | some (.str t) =>
      let m2 := { m1 with Text := t }
      match jlookup d "submatches" with
      | some (.arr (sub0 :: _)) =>
        match sub0 with
        | .obj sm =>
          let startField := jlookup sm "start"
          let m3 := match startField with
            | some (.num st) => { m2 with StartOffset := st }
            | _ => m2
          let m4 := match jlookup sm "end" with
            | some (.num en) => { m3 with EndOffset := en }
            | _ => m3
          match startField with
          | some (.num st) =>
            let en := match jlookup sm "end" with
              | some (.num en) => en
              | _ => 0
            { m4 with Context := extractContext m4.Text st en }
          | _ => m4
        | _ => m2
      | _ => m2
    | _ => m1
  | _ => m1

/-- Go's `result["type"] == "match"`: an `interface{}` comparison that is
true exactly when the value is the string `"match"`. -/
def isMatchType : Option JValue → Bool
  | some (.str s) => s == "match"
  | _ => false

/-- Processes one decoded record: `some m` when the record's discriminator
is `"match"` and its `data` field is an object, `none` otherwise. -/
def parseRecord (fs : List (String × JValue)) : Option Match :=
  if isMatchType (jlookup fs "type") then
    match jlookup fs "data" with
    | some (.obj d) => some (buildMatch d)
    | _ => none
  else none

/-- The scanner loop of `searchFile`: undecodable lines are skipped,
`"match"` records append one `Match`, all other records are ignored. -/
def parseSearchOutput (lines : List RgLine) : List Match :=
  match lines with
  | [] => []
  | none :: rest => parseSearchOutput rest
  | some fs :: rest =>
    match parseRecord fs with
    | some m => m :: parseSearchOutput rest
    | none => parseSearchOutput rest

/-- A fully populated ripgrep `"match"` record, as produced with
`--json`: discriminator `"match"`, and a `data` object carrying the
line number, the full line text and the first submatch's offsets. -/
def mkMatchRecord (ln : Int) (txt : String) (st en : Int) : List (String × JValue) :=
  [("type", .str "match"),
   ("data", .obj
     [("path", .obj [("text", .str "file.jsonl")]),
      ("lines", .obj [("text", .str txt)]),
      ("line_number", .num ln),
      ("absolute_offset", .num 0),
      ("submatches", .arr [.obj [("match", .obj [("text", .str "q")]),
                                  ("start", .num st), ("end", .num en)]])])]

/-- The raw line of the spec's ContextExtractor example (property 4 /
claim C6). -/
def oauthRawLine : String :=
  "\x7b\"type\":\"message\",\"role\":\"user\",\"content\":\"I need help with OAuth implementation\"\x7d"

/-- Outcome of running the ripgrep command for one file: the spawn
failed, or the process exited with a code and produced decoded stdout
lines. -/
inductive RgOutcome where
  | spawnFailure : RgOutcome
  | exited : Int → List RgLine → RgOutcome

/-- The error side of `searchFile` (`cmd.Output()`'s non-nil error after
the exit-code-1 case has been filtered out). -/
inductive SearchFileError where
  | spawn : SearchFileError
  | exitCode : Int → SearchFileError
  deriving DecidableEq, Repr

/-- `searchFile(query, filePath)` given the outcome of the ripgrep
invocation: exit code 0 parses stdout, exit code 1 is a successful empty
result (`nil, nil` in Go), every other exit code or a spawn failure is an
error for this file. -/
def searchFile (_query : String) (outcome : RgOutcome) : Except SearchFileError (List Match) :=
  match outcome with
  | .spawnFailure => .error .spawn
  | .exited code out =>
    if code = 0 then .ok (parseSearchOutput out)
    else if code = 1 then .ok []
    else .error (.exitCode code)

/-! ## ContentSearchEngine (`SearchContent` / `worker`)

The nondeterminism of the Go scheduler and of the caller's context is
made explicit as parameters:

* `rgRun query path` — the outcome of the ripgrep invocation for one file
  (the engine's one external effect);
* `enqCancel i` — whether the enqueue loop's `select` takes the
  `ctx.Done()` branch at iteration `i` (the job channel has capacity
  `len(sessions)`, so the send branch is always ready);
* `jobCancel i` — whether the worker that dequeues job `i` observes
  `ctx.Done()` at its per-job checkpoint and returns;
* `order` — the order in which completed per-file results land on the
  results channel, an arbitrary permutation of the job indices. -/

/-- The cancellation error (`ctx.Err()`) returned by `SearchContent`. -/
inductive SearchError where
  | canceled : SearchError
  deriving DecidableEq, Repr

/-- One worker iteration for job `i`: `none` when the worker observed
cancellation, the provider failed, or the file had no matches; otherwise
the emitted `SearchResult` (`Score = float64(len(matches))`). -/
def runJob (rgRun : String → String → RgOutcome) (jobCancel : Nat → Bool)
    (query : String) (sessions : List SessionInfo) (i : Nat) : Option SearchResult :=
  if jobCancel i then none
  else
    let s := sessions.getD i default
    match searchFile query (rgRun query s.FilePath) with
    | .error _ => none
    | .ok ms => if 0 < ms.length then some ⟨s.ID, i, ms, (ms.length : Int)⟩ else none

/-- `SearchContent(ctx, query, sessions)`: if any enqueue step observes
cancellation the call returns `nil, ctx.Err()`; otherwise every job is
offered to the pool, workers emit per-file results, and the collector
keeps those with at least one match. -/
def searchContent (rgRun : String → String → RgOutcome)
    (enqCancel jobCancel : Nat → Bool) (order : List Nat)
    (query : String) (sessions : List SessionInfo) :
    Except SearchError (List SearchResult) :=
  if (List.range sessions.length).any enqCancel then .error .canceled
  else .ok (((order.filterMap (runJob rgRun jobCancel query sessions)).filter
    (fun r => decide (0 < r.Matches.length))))

/-! ## FilterEngine (`Filter`, fuzzy matching abstracted)

`fuzzy.FindFrom` is third-party code; its output is a parameter
`fuzzyMatches` (one entry per matched session, `Index` pointing into the
input collection).  `Filter` itself performs no sorting: it maps the
matcher's output in order. -/

/-- One element of `fuzzy.FindFrom`'s result (`fuzzy.Match`). -/
structure FuzzyMatch where
  Str : String
  Index : Nat
  MatchedIndexes : List Int
  Score : Int
  deriving DecidableEq, Repr

/-- `Filter(query, sessions)` with the fuzzy matcher's output as a
parameter: empty query returns one pass-through result per session;
otherwise each matcher entry becomes a `SearchResult` with zero-width
highlight spans, in the matcher's order. -/
def Filter (query : String) (sessions : List SessionInfo)
    (fuzzyMatches : List FuzzyMatch) : List SearchResult :=
  if query = "" then
    sessions.enum.map (fun p => ⟨p.2.ID, p.1, [], 1⟩)
  else
    fuzzyMatches.map (fun m =>
      ⟨(sessions.getD m.Index default).ID, m.Index,
       m.MatchedIndexes.map (fun idx => ⟨"", 0, idx, idx + 1, ""⟩),
       m.Score⟩)

/-- Score-descending order with ties broken by ascending session index —
the ordering claim C3 asserts of `Filter`'s output. -/
def resultOrdered (a b : SearchResult) : Prop :=
  b.Score < a.Score ∨ (a.Score = b.Score ∧ a.SessionIndex < b.SessionIndex)

instance : DecidableRel resultOrdered := fun a b => by
  unfold resultOrdered; infer_instance

/-- The same ordering on the fuzzy matcher's own entries. -/
def fuzzyOrdered (a b : FuzzyMatch) : Prop :=
  b.Score < a.Score ∨ (a.Score = b.Score ∧ a.Index < b.Index)

/-! ## UI-layer advisory (internal/ui/app.go)

`enterSearchMode` probes for ripgrep itself (via `exec.LookPath`, the
`rgAvailable` parameter) and posts a one-time warning status message;
`renderStatusBar` shows messages containing "ripgrep" for 10 seconds
instead of the usual 3. -/

/-- The warning posted by `enterSearchMode` when ripgrep is missing. -/
def ripgrepWarning : String := "Warning: ripgrep (rg) not found. Install it for search to work."

/-- The status message after `enterSearchMode`: the ripgrep warning when
the tool is unavailable, otherwise the previous message unchanged. -/
def enterSearchModeStatus (rgAvailable : Bool) (statusMsg : String) : String :=
  if !rgAvailable then ripgrepWarning else statusMsg

/-- `renderStatusBar`'s display duration (seconds) for a status message. -/
def statusDuration (statusMsg : String) : Int :=
  if goContains statusMsg "ripgrep" then 10 else 3

/-! ## Helper lemmas about the string operations -/

lemma strLen_nonneg (s : String) : 0 ≤ strLen s := Int.natCast_nonneg _

lemma listIndexOf_found (s sub : List Char) (h : listIndexOf s sub ≠ -1) :
    0 ≤ listIndexOf s sub ∧ listIndexOf s sub + sub.length ≤ s.length := by
  unfold listIndexOf at h ⊢
  rcases hf : (List.range (s.length + 1)).find? (fun i => sub.isPrefixOf (s.drop i)) with _ | i
  · rw [hf] at h; simp at h
  · have hp : sub.isPrefixOf (s.drop i) = true :=
      List.find?_some (p := fun i => sub.isPrefixOf (s.drop i)) hf
    have hpre := (List.isPrefixOf_iff_prefix.mp hp).length_le
    have hlt : i < s.length + 1 := List.mem_range.mp (List.mem_of_find?_eq_some hf)
    have hdl : (s.drop i).length = s.length - i := List.length_drop i s
    dsimp only
    omega

lemma goIndex_found (s sub : String) (h : goIndex s sub ≠ -1) :
    0 ≤ goIndex s sub ∧ goIndex s sub + strLen sub ≤ strLen s :=
  listIndexOf_found s.data sub.data h

lemma strLen_goDrop (s : String) (i : Int) (h0 : 0 ≤ i) (h1 : i ≤ strLen s) :
    strLen (goDrop s i) = strLen s - i := by
  unfold goDrop strLen at *
  show ((s.data.drop i.toNat).length : Int) = (s.data.length : Int) - i
  rw [List.length_drop]
  omega

lemma strLen_goSlice (s : String) (i j : Int) (h0 : 0 ≤ i) (h1 : i ≤ j) (h2 : j ≤ strLen s) :
    strLen (goSlice s i j) = j - i := by
  unfold goSlice strLen at *
  show (((s.data.drop i.toNat).take (j.toNat - i.toNat)).length : Int) = j - i
  rw [List.length_take, List.length_drop]
  omega

lemma goSlice_goSlice (text : String) (cs ce a b : Int)
    (hcs : 0 ≤ cs) (ha0 : 0 ≤ a) (hab : a ≤ b) (hbce : b ≤ ce) :
    goSlice (goSlice text cs (cs + ce)) a b = goSlice text (cs + a) (cs + b) := by
  unfold goSlice
  apply congrArg String.mk
  rw [List.drop_take, List.drop_drop, List.take_take]
  congr 1
  · omega
  · congr 1
    omega

lemma fallbackWindow_eq_specWindow (text : String) (s e : Int) :
    fallbackWindow text s e = specWindow text 0 (strLen text) s e 30 := by
  unfold fallbackWindow specWindow
  dsimp only
  have ha : (if s - 30 < 0 then (0 : Int) else s - 30) = max 0 (s - 30) := by
    rw [max_def]; split_ifs <;> omega
  have hb : (if e + 30 > strLen text then strLen text else e + 30)
      = min (strLen text) (e + 30) := by
    rw [min_def]; split_ifs <;> omega
  rw [ha, hb]

lemma fieldWindow_eq_specWindow (text : String) (cs ce s e : Int)
    (hcs : 0 ≤ cs) (hbound : cs + ce ≤ strLen text)
    (hin1 : cs ≤ s) (hin2 : s < cs + ce) (hse : s ≤ e) :
    fieldWindow (goSlice text cs (cs + ce)) (s - cs) (e - s)
      = specWindow text cs (cs + ce) s e 50 := by
  have hce0 : 0 ≤ ce := by omega
  have hlen : strLen (goSlice text cs (cs + ce)) = ce := by
    rw [strLen_goSlice text cs (cs + ce) hcs (by omega) hbound]; ring
  unfold fieldWindow specWindow
  dsimp only
  rw [hlen]
  have ha : (if s - cs - 50 < 0 then (0 : Int) else s - cs - 50) = max cs (s - 50) - cs := by
    rw [max_def]; split_ifs <;> omega
  have hb : (if s - cs + (e - s) + 50 > ce then ce else s - cs + (e - s) + 50)
      = min (cs + ce) (e + 50) - cs := by
    rw [min_def]; split_ifs <;> omega
  rw [ha, hb]
  have hslice : goSlice (goSlice text cs (cs + ce)) (max cs (s - 50) - cs)
      (min (cs + ce) (e + 50) - cs)
      = goSlice text (max cs (s - 50)) (min (cs + ce) (e + 50)) := by
    rw [goSlice_goSlice text cs ce _ _ hcs (by omega) (by omega) (by omega)]
    congr 1 <;> omega
  rw [hslice]
  have hpre : (max cs (s - 50) - cs > 0) = (cs < max cs (s - 50)) := by
    apply propext; constructor <;> intro <;> omega
  have hpost : (min (cs + ce) (e + 50) - cs < ce) = (min (cs + ce) (e + 50) < cs + ce) := by
    apply propext; constructor <;> intro <;> omega
  simp only [hpre, hpost]

/-! ## Claim theorems -/

/-- Claim C7: for every query and decoded stdout, when ripgrep exits with
status 1 (zero matches found), `searchFile` returns a successful empty
match list and no error (`nil, nil` in Go). -/
theorem C7_exit_one_is_empty_success (query : String) (out : List RgLine) :
    searchFile query (.exited 1 out) = .ok [] := rfl

/-- Claim C5: `Filter` with the empty query returns one `SearchResult`
per session, in input order, each with `Score = 1.0`, `SessionIndex`
equal to its input position, and empty `Matches` (for any output of the
fuzzy matcher, which is not consulted on this path). -/
theorem C5_filter_empty_query (sessions : List SessionInfo) (fm : List FuzzyMatch) :
    (Filter "" sessions fm).length = sessions.length ∧
    ∀ i, i < sessions.length →
      (Filter "" sessions fm).getD i default
        = ⟨(sessions.getD i default).ID, i, [], 1⟩ := by
  constructor
  · simp [Filter]
  · intro i h
    simp [Filter, List.getD_eq_getElem?_getD, List.getElem?_enum,
      List.getElem?_eq_getElem h]

/-- Witness for C5 at a concrete session collection. -/
theorem C5_witness :
    (Filter "" [⟨"s1", "f1", "2025-01-01 00:00"⟩] []).length = 1 ∧
    (Filter "" [⟨"s1", "f1", "2025-01-01 00:00"⟩] []).getD 0 default
      = ⟨"s1", 0, [], 1⟩ :=
  ⟨(C5_filter_empty_query [⟨"s1", "f1", "2025-01-01 00:00"⟩] []).1,
   (C5_filter_empty_query [⟨"s1", "f1", "2025-01-01 00:00"⟩] []).2 0 (by decide)⟩

/-- Claim C9: stdout lines that fail to decode are skipped individually
and parsing continues; records whose discriminator is not `"match"` are
ignored; a `"match"` record contributes one `Match` carrying its line
number, full line text and first-submatch offsets. -/
theorem C9_parse_output :
    (∀ rest, parseSearchOutput (none :: rest) = parseSearchOutput rest) ∧
    (∀ fs rest, isMatchType (jlookup fs "type") = false →
      parseSearchOutput (some fs :: rest) = parseSearchOutput rest) ∧
    (∀ ln txt st en rest,
      parseSearchOutput (some (mkMatchRecord ln txt st en) :: rest)
        = ⟨txt, ln, st, en, extractContext txt st en⟩ :: parseSearchOutput rest) := by
  refine ⟨fun rest => rfl, ?_, ?_⟩
  · intro fs rest h
    simp [parseSearchOutput, parseRecord, h]
  · intro ln txt st en rest
    simp [parseSearchOutput, parseRecord, mkMatchRecord, isMatchType, jlookup, buildMatch]

/-- Witness for C9 at concrete stdout lines. -/
theorem C9_witness :
    parseSearchOutput [none] = parseSearchOutput [] ∧
    parseSearchOutput [some [("type", JValue.str "begin")]] = parseSearchOutput [] ∧
    parseSearchOutput [some (mkMatchRecord 1 "abc" 0 1)]
      = [⟨"abc", 1, 0, 1, extractContext "abc" 0 1⟩] :=
  ⟨C9_parse_output.1 [],
   C9_parse_output.2.1 [("type", JValue.str "begin")] [] (by decide),
   C9_parse_output.2.2 1 "abc" 0 1 []⟩

/-- Claim C3 counterexample: `Filter` imposes no sort of its own, so for
a fuzzy-matcher output whose internal order is not score-descending (here
scores 1 then 5, both indices valid for the two input sessions), the
returned list is not sorted by score descending with index tiebreak —
contradicting the claim's "independent of the underlying fuzzy matcher's
internal ordering". -/
theorem C3_counterexample :
    ¬ (Filter "q" [⟨"s1", "f1", "2025-01-01 00:00"⟩, ⟨"s2", "f2", "2025-01-02 00:00"⟩]
        [⟨"s1 2025-01-01 00:00", 0, [0], 1⟩, ⟨"s2 2025-01-02 00:00", 1, [0], 5⟩]).Pairwise
      resultOrdered := by decide

/-- Claim C3 as amended: `Filter` with a non-empty query maps the fuzzy
matcher's output in the matcher's own order (results carry the matched
session's index and the matcher's score), so whenever the matcher's
output is sorted by score descending with ties broken by ascending index
— which `sahilm/fuzzy`'s stable sort over index-ordered candidates
produces — the returned list is sorted the same way. -/
theorem C3_filter_order (query : String) (sessions : List SessionInfo)
    (fm : List FuzzyMatch) (hq : query ≠ "")
    (hsorted : fm.Pairwise fuzzyOrdered) :
    ((Filter query sessions fm).map (·.SessionIndex) = fm.map (·.Index) ∧
     (Filter query sessions fm).map (·.Score) = fm.map (·.Score)) ∧
    (Filter query sessions fm).Pairwise resultOrdered := by
  constructor
  · constructor <;> simp [Filter, hq]
  · simp only [Filter, hq, if_neg]
    refine List.Pairwise.map _ ?_ hsorted
    intro a b hab
    rcases hab with h | ⟨h1, h2⟩
    · exact Or.inl h
    · exact Or.inr ⟨h1, h2⟩

/-- Witness for C3's amended theorem at a concrete sorted matcher output. -/
theorem C3_witness :
    ((Filter "s" [⟨"s1", "f1", "2025-01-01 00:00"⟩, ⟨"s2", "f2", "2025-01-02 00:00"⟩]
        [⟨"s1 2025-01-01 00:00", 0, [0], 7⟩, ⟨"s2 2025-01-02 00:00", 1, [0], 2⟩]).map
          (·.SessionIndex) = [0, 1] ∧
     (Filter "s" [⟨"s1", "f1", "2025-01-01 00:00"⟩, ⟨"s2", "f2", "2025-01-02 00:00"⟩]
        [⟨"s1 2025-01-01 00:00", 0, [0], 7⟩, ⟨"s2 2025-01-02 00:00", 1, [0], 2⟩]).map
          (·.Score) = [7, 2]) ∧
    (Filter "s" [⟨"s1", "f1", "2025-01-01 00:00"⟩, ⟨"s2", "f2", "2025-01-02 00:00"⟩]
        [⟨"s1 2025-01-01 00:00", 0, [0], 7⟩, ⟨"s2 2025-01-02 00:00", 1, [0], 2⟩]).Pairwise
      resultOrdered :=
  C3_filter_order "s" _ _ (by decide) (by
    refine List.pairwise_cons.mpr ⟨?_, List.pairwise_singleton _ _⟩
    intro b hb
    simp only [List.mem_singleton] at hb
    subst hb
    exact Or.inl (by decide))

lemma runJob_eq_some {rgRun : String → String → RgOutcome} {jobCancel : Nat → Bool}
    {query : String} {sessions : List SessionInfo} {i : Nat} {r : SearchResult}
    (h : runJob rgRun jobCancel query sessions i = some r) :
    r.SessionIndex = i ∧ r.Matches ≠ [] ∧
    r.SessionID = (sessions.getD i default).ID := by
  unfold runJob at h
  split at h
  · exact absurd h (by simp)
  · dsimp only at h
    split at h
    · exact absurd h (by simp)
    · rename_i ms hms
      split at h
      · rename_i hlen
        cases h
        refine ⟨rfl, ?_, rfl⟩
        intro hnil
        simp only at hnil
        subst hnil
        simp at hlen
      · exact absurd h (by simp)

lemma runJob_eq_none_of_error {rgRun : String → String → RgOutcome} {jobCancel : Nat → Bool}
    {query : String} {sessions : List SessionInfo} {i : Nat} {e : SearchFileError}
    (hfail : searchFile query (rgRun query ((sessions.getD i default).FilePath)) = .error e) :
    runJob rgRun jobCancel query sessions i = none := by
  unfold runJob
  split
  · rfl
  · dsimp only
    rw [hfail]

lemma runJob_eq_some_of_ok {rgRun : String → String → RgOutcome} {jobCancel : Nat → Bool}
    {query : String} {sessions : List SessionInfo} {i : Nat} {ms : List Match}
    (hjc : jobCancel i = false)
    (hok : searchFile query (rgRun query ((sessions.getD i default).FilePath)) = .ok ms)
    (hne : ms ≠ []) :
    runJob rgRun jobCancel query sessions i
      = some ⟨(sessions.getD i default).ID, i, ms, (ms.length : Int)⟩ := by
  unfold runJob
  rw [if_neg (by simp [hjc])]
  dsimp only
  rw [hok]
  dsimp only
  rw [if_pos (List.length_pos.mpr hne)]

/-- Claim C1: whenever `SearchContent` returns with a nil error, every
returned `SearchResult` has non-empty `Matches`, no session appears
twice (the `SessionIndex` values are pairwise distinct, and so are the
`SessionID`s whenever the input collection's IDs are distinct), and each
result's `SessionIndex` is a valid position in the input collection whose
session it names. Holds for every cancellation schedule and completion
order that is a permutation of the job indices. -/
theorem C1_content_results_wf
    (rgRun : String → String → RgOutcome) (enqCancel jobCancel : Nat → Bool)
    (order : List Nat) (query : String) (sessions : List SessionInfo)
    (hord : order.Perm (List.range sessions.length))
    (results : List SearchResult)
    (h : searchContent rgRun enqCancel jobCancel order query sessions = .ok results) :
    (∀ r ∈ results, r.Matches ≠ []) ∧
    (results.map (·.SessionIndex)).Nodup ∧
    (∀ r ∈ results, r.SessionIndex < sessions.length ∧
      r.SessionID = (sessions.getD r.SessionIndex default).ID) ∧
    ((sessions.map (·.ID)).Nodup → (results.map (·.SessionID)).Nodup) := by
  unfold searchContent at h
  split at h
  · exact absurd h (by simp)
  · cases h
    set f := runJob rgRun jobCancel query sessions with hf
    set results := (order.filterMap f).filter (fun r => decide (0 < r.Matches.length))
      with hres
    have hmem : ∀ r ∈ results, ∃ i ∈ order, f i = some r := by
      intro r hr
      exact List.mem_filterMap.mp (List.mem_of_mem_filter hr)
    have hidx : ∀ r ∈ results, r.SessionIndex < sessions.length ∧
        r.SessionID = (sessions.getD r.SessionIndex default).ID ∧ r.Matches ≠ [] := by
      intro r hr
      obtain ⟨i, hi, hfi⟩ := hmem r hr
      obtain ⟨hidx, hne, hid⟩ := runJob_eq_some hfi
      subst hidx
      have : r.SessionIndex ∈ List.range sessions.length := hord.subset hi
      exact ⟨List.mem_range.mp this, hid, hne⟩
    have hnodupIdx : (results.map (·.SessionIndex)).Nodup := by
      have hnodupOrder : order.Nodup := hord.nodup_iff.mpr (List.nodup_range _)
      have hsub : (results.map (·.SessionIndex)).Sublist
          ((order.filterMap f).map (·.SessionIndex)) :=
        List.Sublist.map _ (List.filter_sublist _)
      apply hsub.nodup
      rw [List.map_filterMap]
      apply List.Nodup.filterMap ?_ hnodupOrder
      intro a a' b hb hb'
      simp only [Option.mem_def, Option.map_eq_some'] at hb hb'
      obtain ⟨r, hfa, hrb⟩ := hb
      obtain ⟨r', hfa', hrb'⟩ := hb'
      have e1 := (runJob_eq_some hfa).1
      have e2 := (runJob_eq_some hfa').1
      omega
    refine ⟨fun r hr => (hidx r hr).2.2, hnodupIdx,
      fun r hr => ⟨(hidx r hr).1, (hidx r hr).2.1⟩, ?_⟩
    intro hids
    have hrw : results.map (·.SessionID)
        = (results.map (·.SessionIndex)).map (fun i => (sessions.getD i default).ID) := by
      rw [List.map_map]
      exact List.map_congr_left (fun r hr => (hidx r hr).2.1)
    rw [hrw]
    apply List.Nodup.map_on ?_ hnodupIdx
    intro x hx y hy hxy
    obtain ⟨rx, hrx, hrxi⟩ := List.mem_map.mp hx
    obtain ⟨ry, hry, hryi⟩ := List.mem_map.mp hy
    have hxlt : x < sessions.length := hrxi ▸ (hidx rx hrx).1
    have hylt : y < sessions.length := hryi ▸ (hidx ry hry).1
    have hgx : (sessions.getD x default).ID = (sessions.map (·.ID)).getD x "" := by
      rw [List.getD_eq_getElem _ _ hxlt, List.getD_eq_getElem _ _ (by simpa using hxlt)]
      simp
    have hgy : (sessions.getD y default).ID = (sessions.map (·.ID)).getD y "" := by
      rw [List.getD_eq_getElem _ _ hylt, List.getD_eq_getElem _ _ (by simpa using hylt)]
      simp
    rw [hgx, hgy] at hxy
    rw [List.getD_eq_getElem _ _ (by simpa using hxlt),
      List.getD_eq_getElem _ _ (by simpa using hylt)] at hxy
    exact (List.Nodup.getElem_inj_iff hids).mp hxy

/-- Witness for C1 at a concrete two-session run with reversed completion
order. -/
theorem C1_witness :
    (∀ r ∈ ([⟨"s2", 1, [⟨"abc", 1, 0, 1, "abc"⟩], 1⟩,
             ⟨"s1", 0, [⟨"abc", 1, 0, 1, "abc"⟩], 1⟩] : List SearchResult),
      r.Matches ≠ []) ∧
    (([⟨"s2", 1, [⟨"abc", 1, 0, 1, "abc"⟩], 1⟩,
       ⟨"s1", 0, [⟨"abc", 1, 0, 1, "abc"⟩], 1⟩] : List SearchResult).map
        (·.SessionIndex)).Nodup ∧
    (∀ r ∈ ([⟨"s2", 1, [⟨"abc", 1, 0, 1, "abc"⟩], 1⟩,
             ⟨"s1", 0, [⟨"abc", 1, 0, 1, "abc"⟩], 1⟩] : List SearchResult),
      r.SessionIndex < ([⟨"s1", "f1", "t1"⟩, ⟨"s2", "f2", "t2"⟩] : List SessionInfo).length ∧
      r.SessionID = (([⟨"s1", "f1", "t1"⟩, ⟨"s2", "f2", "t2"⟩] : List SessionInfo).getD
        r.SessionIndex default).ID) ∧
    ((([⟨"s1", "f1", "t1"⟩, ⟨"s2", "f2", "t2"⟩] : List SessionInfo).map (·.ID)).Nodup →
      (([⟨"s2", 1, [⟨"abc", 1, 0, 1, "abc"⟩], 1⟩,
         ⟨"s1", 0, [⟨"abc", 1, 0, 1, "abc"⟩], 1⟩] : List SearchResult).map
          (·.SessionID)).Nodup) :=
  C1_content_results_wf (fun _ _ => .exited 0 [some (mkMatchRecord 1 "abc" 0 1)])
    (fun _ => false) (fun _ => false) [1, 0] "q"
    [⟨"s1", "f1", "t1"⟩, ⟨"s2", "f2", "t2"⟩] (by decide) _ (by decide)

/-- Claim C2 counterexample: with cancellation observed at the worker's
job boundary for the second job (enqueue having completed), the code does
not return a cancellation error: it returns the already-completed partial
result of the first job together with a nil error — contradicting the
claim that context expiry "between jobs" yields the cancellation error
with no partial results. -/
theorem C2_counterexample :
    (fun i => i == 1) 1 = true ∧
    searchContent (fun _ _ => .exited 0 [some (mkMatchRecord 1 "abc" 0 1)])
      (fun _ => false) (fun i => i == 1) [0, 1] "q"
      [⟨"s1", "f1", "t1"⟩, ⟨"s2", "f2", "t2"⟩]
      = .ok [⟨"s1", 0, [⟨"abc", 1, 0, 1, "abc"⟩], 1⟩] := by decide

/-- Claim C2 as amended: if the caller's context expires during job
enqueue, `SearchContent` returns the cancellation error with nil results
and any partial per-file results are discarded; if no enqueue step
observes cancellation, the call returns with a nil error (so cancellation
observed only at worker job boundaries merely drops the unprocessed jobs
— the completed results are returned with a nil error). -/
theorem C2_cancellation_contract
    (rgRun : String → String → RgOutcome) (enqCancel jobCancel : Nat → Bool)
    (order : List Nat) (query : String) (sessions : List SessionInfo) :
    ((List.range sessions.length).any enqCancel = true →
      searchContent rgRun enqCancel jobCancel order query sessions = .error .canceled) ∧
    ((List.range sessions.length).any enqCancel = false →
      ∃ rs, searchContent rgRun enqCancel jobCancel order query sessions = .ok rs) := by
  refine ⟨fun h => ?_, fun h => ?_⟩
  · unfold searchContent
    rw [if_pos h]
  · unfold searchContent
    rw [if_neg (by simp [h])]
    exact ⟨_, rfl⟩

/-- Witness for C2's amended theorem on both branches. -/
theorem C2_witness :
    searchContent (fun _ _ => .exited 1 []) (fun _ => true) (fun _ => false) [0] "q"
      [⟨"s1", "f1", "t1"⟩] = .error .canceled ∧
    ∃ rs, searchContent (fun _ _ => .exited 1 []) (fun _ => false) (fun _ => false) [0] "q"
      [⟨"s1", "f1", "t1"⟩] = .ok rs :=
  ⟨(C2_cancellation_contract (fun _ _ => .exited 1 []) (fun _ => true) (fun _ => false)
      [0] "q" [⟨"s1", "f1", "t1"⟩]).1 (by decide),
   (C2_cancellation_contract (fun _ _ => .exited 1 []) (fun _ => false) (fun _ => false)
      [0] "q" [⟨"s1", "f1", "t1"⟩]).2 (by decide)⟩

/-- Claim C8: a per-file provider failure (spawn failure or abnormal
exit) is isolated to that file — the failing session contributes nothing,
yet the call returns a nil error and the results of every other
successfully matching file are present. -/
theorem C8_per_file_isolation
    (rgRun : String → String → RgOutcome) (jobCancel : Nat → Bool)
    (order : List Nat) (query : String) (sessions : List SessionInfo)
    (hord : order.Perm (List.range sessions.length))
    (i : Nat) (e : SearchFileError)
    (hfail : searchFile query (rgRun query ((sessions.getD i default).FilePath)) = .error e) :
    ∃ rs, searchContent rgRun (fun _ => false) jobCancel order query sessions = .ok rs ∧
      (∀ r ∈ rs, r.SessionIndex ≠ i) ∧
      (∀ j, j < sessions.length → j ≠ i → jobCancel j = false →
        ∀ ms, searchFile query (rgRun query ((sessions.getD j default).FilePath)) = .ok ms →
          ms ≠ [] →
          (⟨(sessions.getD j default).ID, j, ms, (ms.length : Int)⟩ : SearchResult) ∈ rs) := by
  refine ⟨(order.filterMap (runJob rgRun jobCancel query sessions)).filter
      (fun r => decide (0 < r.Matches.length)), ?_, ?_, ?_⟩
  · unfold searchContent
    rw [if_neg (by simp)]
  · intro r hr
    obtain ⟨a, ha, hfa⟩ := List.mem_filterMap.mp (List.mem_of_mem_filter hr)
    obtain ⟨hidx, hne, hid⟩ := runJob_eq_some hfa
    subst hidx
    intro hri
    rw [hri] at hfa
    rw [runJob_eq_none_of_error hfail] at hfa
    exact absurd hfa (by simp)
  · intro j hj hji hjc ms hok hne
    apply List.mem_filter.mpr
    refine ⟨?_, by simp [List.length_pos.mpr hne]⟩
    apply List.mem_filterMap.mpr
    exact ⟨j, hord.mem_iff.mpr (List.mem_range.mpr hj),
      runJob_eq_some_of_ok hjc hok hne⟩

/-- Witness for C8: the second file's ripgrep spawn fails, the first
file still contributes its result and the error is nil. -/
theorem C8_witness :
    ∃ rs, searchContent
        (fun _ p => if p = "f2" then .spawnFailure
          else .exited 0 [some (mkMatchRecord 1 "abc" 0 1)])
        (fun _ => false) (fun _ => false) [0, 1] "q"
        [⟨"s1", "f1", "t1"⟩, ⟨"s2", "f2", "t2"⟩] = .ok rs ∧
      (∀ r ∈ rs, r.SessionIndex ≠ 1) ∧
      (∀ j, j < ([⟨"s1", "f1", "t1"⟩, ⟨"s2", "f2", "t2"⟩] : List SessionInfo).length →
        j ≠ 1 → (fun _ : Nat => false) j = false →
        ∀ ms, searchFile "q"
            ((fun _ p => if p = "f2" then RgOutcome.spawnFailure
              else .exited 0 [some (mkMatchRecord 1 "abc" 0 1)]) "q"
              ((([⟨"s1", "f1", "t1"⟩, ⟨"s2", "f2", "t2"⟩] : List SessionInfo).getD
                j default).FilePath)) = .ok ms →
          ms ≠ [] →
          (⟨(([⟨"s1", "f1", "t1"⟩, ⟨"s2", "f2", "t2"⟩] : List SessionInfo).getD
              j default).ID, j, ms, (ms.length : Int)⟩ : SearchResult) ∈ rs) :=
  C8_per_file_isolation
    (fun _ p => if p = "f2" then .spawnFailure
      else .exited 0 [some (mkMatchRecord 1 "abc" 0 1)])
    (fun _ => false) [0, 1] "q" [⟨"s1", "f1", "t1"⟩, ⟨"s2", "f2", "t2"⟩]
    (by decide) 1 .spawn (by decide)

/-- Claim C4 counterexample: when the tool is unavailable (every spawn
fails), `SearchContent` returns `.ok []` — exactly the same value, with a
nil error and no advisory of any kind, as when the tool runs fine and
simply finds no matches. The engine therefore does not distinguish the
unavailability condition nor surface any advisory to its caller. -/
theorem C4_counterexample :
    searchContent (fun _ _ => .spawnFailure) (fun _ => false) (fun _ => false) [0] "q"
      [⟨"s1", "f1", "t1"⟩] = .ok [] ∧
    searchContent (fun _ _ => .exited 1 []) (fun _ => false) (fun _ => false) [0] "q"
      [⟨"s1", "f1", "t1"⟩] = .ok [] := by decide

/-- Claim C4 as amended: the content engine itself degrades tool
unavailability to zero results with a nil error (indistinguishable from
"no matches"); the one-time advisory is produced by the UI layer, which
probes for ripgrep itself when entering search mode, posts a warning
status message, and displays messages mentioning "ripgrep" for 10 seconds
instead of the usual 3. -/
theorem C4_tool_unavailable
    (rgRun : String → String → RgOutcome) (jobCancel : Nat → Bool)
    (order : List Nat) (query : String) (sessions : List SessionInfo)
    (hun : ∀ p, rgRun query p = .spawnFailure) :
    searchContent rgRun (fun _ => false) jobCancel order query sessions = .ok [] ∧
    enterSearchModeStatus false "" = ripgrepWarning ∧
    statusDuration ripgrepWarning = 10 ∧
    (∀ msg, goContains msg "ripgrep" = false → statusDuration msg = 3) := by
  refine ⟨?_, rfl, by decide, fun msg h => by simp [statusDuration, h]⟩
  unfold searchContent
  rw [if_neg (by simp)]
  have hnil : order.filterMap (runJob rgRun jobCancel query sessions) = [] := by
    apply List.filterMap_eq_nil_iff.mpr
    intro a ha
    unfold runJob
    split
    · rfl
    · dsimp only
      rw [hun _]
      rfl
  rw [hnil]
  rfl

/-- Witness for C4's amended theorem at a concrete unavailable-tool run. -/
theorem C4_witness :
    searchContent (fun _ _ => .spawnFailure) (fun _ => false) (fun _ => false) [0] "oauth"
      [⟨"s1", "f1", "t1"⟩] = .ok [] ∧
    enterSearchModeStatus false "" = ripgrepWarning ∧
    statusDuration ripgrepWarning = 10 ∧
    (∀ msg, goContains msg "ripgrep" = false → statusDuration msg = 3) :=
  C4_tool_unavailable (fun _ _ => .spawnFailure) (fun _ => false) [0] "oauth"
    [⟨"s1", "f1", "t1"⟩] (fun _ => rfl)

lemma fallbackWindowChecked_eq (text : String) (s e : Int)
    (hs : 0 ≤ s) (hse : s ≤ e) (he : e ≤ strLen text) :
    fallbackWindowChecked text s e = some (fallbackWindow text s e) := by
  have hn := strLen_nonneg text
  unfold fallbackWindowChecked fallbackWindow goSliceChecked
  dsimp only
  rw [if_pos (by refine ⟨?_, ?_, ?_⟩ <;> split_ifs <;> omega)]
  rfl

lemma fieldWindowChecked_eq (content : String) (pos mlen : Int)
    (hpos : 0 ≤ pos) (hlt : pos < strLen content) (hm : 0 ≤ mlen) :
    fieldWindowChecked content pos mlen = some (fieldWindow content pos mlen) := by
  unfold fieldWindowChecked fieldWindow goSliceChecked
  dsimp only
  rw [if_pos (by refine ⟨?_, ?_, ?_⟩ <;> split_ifs <;> omega)]
  rfl

lemma extractContext_eq_spec (text : String) (s e : Int) (hse : s ≤ e) :
    extractContext text s e = extractContextSpec text s e := by
  unfold extractContext extractContextSpec fieldSpan
  dsimp only
  by_cases h1 : goIndex text contentKey = -1
  · have hc : goContains text contentKey = false := by simp [goContains, h1]
    rw [hc, h1, if_neg Bool.false_ne_true, if_pos rfl]
    exact fallbackWindow_eq_specWindow text s e
  · obtain ⟨hk0, hk1⟩ := goIndex_found text contentKey h1
    have hc : goContains text contentKey = true := by simp [goContains, h1]
    rw [hc, if_pos rfl, if_pos h1, if_neg h1]
    have h11 : strLen contentKey = 11 := rfl
    set cs := goIndex text contentKey + strLen contentKey with hcs
    set ce := goIndex (goDrop text cs) quoteStr with hce
    have hcs0 : 0 ≤ cs := by rw [hcs]; omega
    have hcsn : cs ≤ strLen text := by rw [hcs]; omega
    by_cases h2 : ce = -1
    · rw [if_neg (fun hne => hne h2), if_pos h2]
      exact fallbackWindow_eq_specWindow text s e
    · obtain ⟨hce0, hce1⟩ := goIndex_found (goDrop text cs) quoteStr h2
      have hrl : strLen (goDrop text cs) = strLen text - cs := strLen_goDrop text cs hcs0 hcsn
      have hq1 : strLen quoteStr = 1 := rfl
      rw [if_pos h2, if_neg h2]
      dsimp only
      by_cases h3 : cs ≤ s ∧ s < cs + ce
      · rw [if_pos h3, if_pos h3]
        exact fieldWindow_eq_specWindow text cs ce s e hcs0 (by omega) h3.1 h3.2 hse
      · rw [if_neg h3, if_neg h3]
        exact fallbackWindow_eq_specWindow text s e

/-- Claim C6 counterexample: for the line `{"content":"hello"}tail` with
match span `[13, 20)` — start inside the content field's span `[12, 17)`
but end beyond it — the span does not lie inside the field, so the claim
as stated requires the generic whole-line window; the code only checks
the start offset, takes the field branch, and returns `"hello"`. -/
theorem C6_counterexample :
    extractContext "\x7b\"content\":\"hello\"\x7dtail" 13 20
      ≠ extractContextClaim "\x7b\"content\":\"hello\"\x7dtail" 13 20 ∧
    extractContext "\x7b\"content\":\"hello\"\x7dtail" 13 20 = "hello" := by decide

/-- Claim C6 as amended: `extractContext` behaves as the spec describes
with the field-branch condition weakened to "the match START offset lies
inside the field's span" (the end offset is never examined): it then
returns the 50-character window clipped to the field with the ellipsis
convention, and otherwise the 30-character window over the whole raw
line. On the spec's example line with the match span on "OAuth" the
result is strictly shorter than the raw line, contains "OAuth", and does
not contain `"type":"message"`. -/
theorem C6_extract_context :
    (∀ text s e, s ≤ e → extractContext text s e = extractContextSpec text s e) ∧
    (goIndex oauthRawLine "OAuth" = 60 ∧
     strLen (extractContext oauthRawLine 60 65) < strLen oauthRawLine ∧
     goContains (extractContext oauthRawLine 60 65) "OAuth" = true ∧
     goContains (extractContext oauthRawLine 60 65) "\"type\":\"message\"" = false) :=
  ⟨extractContext_eq_spec, by decide⟩

/-- Witness for C6's amended theorem at a concrete line and span. -/
theorem C6_witness :
    extractContext "xy" 0 1 = extractContextSpec "xy" 0 1 :=
  C6_extract_context.1 "xy" 0 1 (by decide)

/-- Claim C10: `extractContext` is total — for every text and offsets
with `0 ≤ start ≤ end ≤ len(text)`, every Go slice it performs is within
bounds (the fully guarded embedding returns `some`, never the panic
marker `none`) and the returned string is the one computed by the
unguarded embedding. -/
theorem C10_extract_context_total (text : String) (s e : Int)
    (hs : 0 ≤ s) (hse : s ≤ e) (he : e ≤ strLen text) :
    extractContextChecked text s e = some (extractContext text s e) := by
  unfold extractContextChecked extractContext
  dsimp only
  by_cases h1 : goIndex text contentKey = -1
  · have hc : goContains text contentKey = false := by simp [goContains, h1]
    rw [hc, if_neg Bool.false_ne_true, if_neg Bool.false_ne_true]
    exact fallbackWindowChecked_eq text s e hs hse he
  · obtain ⟨hk0, hk1⟩ := goIndex_found text contentKey h1
    have hc : goContains text contentKey = true := by simp [goContains, h1]
    rw [hc, if_pos rfl, if_pos rfl, if_pos h1, if_pos h1]
    have h11 : strLen contentKey = 11 := rfl
    set cs := goIndex text contentKey + strLen contentKey with hcs
    have hcs0 : 0 ≤ cs := by rw [hcs]; omega
    have hcsn : cs ≤ strLen text := by rw [hcs]; omega
    have hdrop : goDropChecked text cs = some (goDrop text cs) := if_pos ⟨hcs0, hcsn⟩
    rw [hdrop]
    dsimp only [Bind.bind, Option.bind]
    set ce := goIndex (goDrop text cs) quoteStr with hce
    by_cases h2 : ce = -1
    · rw [if_neg (fun hne => hne h2), if_neg (fun hne => hne h2)]
      exact fallbackWindowChecked_eq text s e hs hse he
    · obtain ⟨hce0, hce1⟩ := goIndex_found (goDrop text cs) quoteStr h2
      have hrl : strLen (goDrop text cs) = strLen text - cs := strLen_goDrop text cs hcs0 hcsn
      have hq1 : strLen quoteStr = 1 := rfl
      rw [if_pos h2, if_pos h2]
      have hslice : goSliceChecked text cs (cs + ce) = some (goSlice text cs (cs + ce)) :=
        if_pos ⟨hcs0, by omega, by omega⟩
      rw [hslice]
      dsimp only [Bind.bind, Option.bind]
      have hlenc : strLen (goSlice text cs (cs + ce)) = ce := by
        rw [strLen_goSlice text cs (cs + ce) hcs0 (by omega) (by omega)]; ring
      by_cases h3 : cs ≤ s ∧ s < cs + ce
      · rw [if_pos h3, if_pos h3]
        exact fieldWindowChecked_eq _ _ _ (by omega) (by omega) (by omega)
      · rw [if_neg h3, if_neg h3]
        exact fallbackWindowChecked_eq text s e hs hse he

/-- Witness for C10 at a concrete text and span. -/
theorem C10_witness :
    extractContextChecked "hello" 1 3 = some (extractContext "hello" 1 3) :=
  C10_extract_context_total "hello" 1 3 (by decide) (by decide) (by decide)

end SessionBrowser
